import Mathlib

/-!
Shallow embedding of the Snowflake-Cortex-AI pagination library.

Source files embedded:
- `src/cust_client_page.py` — `SnowflakeCortexPaginator.paginate_cortex_results`:
  a while-loop that repeatedly substitutes an offset/limit window into a SQL
  template, executes it, and yields one page dictionary per non-empty fetch.
- `src/error_handling.py` — `retry_on_failure`: a retry decorator with
  exponential backoff.
- `src/monitoring.py` — `MonitoredPaginator`: a metrics-accumulating wrapper
  around the page sequence.
- `src/redis_cache_mgmt.py` — `CachedPaginator`: a Redis-backed page cache.

Modelling conventions:
- The query-execution environment (cursor.execute + fetchall for a formatted
  query) is a function `fetch : Nat → Nat → Except ε (List (List ν))` taking
  the two values substituted into the template, `offset` and `limit`
  (`query.format(offset=offset, limit=page_size)`); an `Except.error` models a
  Python exception raised during execute/fetch.
- `cursor.description` column names are a fixed `columns : List String`;
  `dict(zip(columns, row))` becomes `columns.zip row`.
- Wall-clock durations (Python floats) are modelled as exact rationals `ℚ`;
  per-fetch execution time is an environment function `timeOf`.
- The unbounded `while True` loop is given explicit fuel; `none` means the
  fuel ran out before the loop reached any of its exits, so every `some`
  result is a complete, faithfully simulated session.
- Python truthiness in `if max_pages and page_num >= max_pages` is modelled
  exactly: `None` and `0` are falsy, so both disable the ceiling check.
-/

namespace SnowflakeCortex

/-- A page dictionary yielded by `paginate_cortex_results`
(`src/cust_client_page.py` lines 70-76): keys `page_number`, `total_records`,
`data`, `execution_time`, `offset`. -/
structure Page (ν : Type) where
  page_number : Nat
  total_records : Nat
  data : List (List (String × ν))
  execution_time : ℚ
  offset : Nat
deriving DecidableEq, Repr

/-- The observable trace of one pagination session: the pages yielded in
order, the offsets substituted into each issued fetch in order, and the
exception (if any) that the session re-raised. -/
structure SessionTrace (ε ν : Type) where
  pages : List (Page ν)
  fetched : List Nat
  error : Option ε
deriving DecidableEq, Repr

/-- Python truthiness of `max_pages and page_num >= max_pages`
(`src/cust_client_page.py` line 48): `max_pages = None` and `max_pages = 0`
are both falsy, so the conjunction short-circuits to a falsy value and the
ceiling check is skipped. -/
def truthyCeiling (max_pages : Option Nat) (page_num : Nat) : Bool :=
  match max_pages with
  | none => false
  | some m => decide (m ≠ 0) && decide (page_num ≥ m)

/-- The page dictionary built for one non-empty fetch
(`src/cust_client_page.py` lines 66-76): `page_data` is
`[dict(zip(columns, row)) for row in results]`, and the yielded dictionary
carries the 1-based page number, `len(page_data)`, the data, the fetch
duration, and the offset that produced it. -/
def mkPage (columns : List String) (timeOf : Nat → ℚ) (offset page_num : Nat)
    (results : List (List ν)) : Page ν :=
  let page_data := results.map (fun row => columns.zip row)
  { page_number := page_num + 1
    total_records := page_data.length
    data := page_data
    execution_time := timeOf offset
    offset := offset }

/-- The `try` body of `paginate_cortex_results` (`src/cust_client_page.py`
lines 46-86): the `while True` loop, with fuel making the recursion total.
Each iteration: check the `max_pages` ceiling, format and execute the
paginated query, break on an empty result set, otherwise build the page
dictionary from `dict(zip(columns, row))`, yield it, and advance
`offset += page_size; page_num += 1`.  An exception from execute/fetch is
recorded and re-raised (the `except` clause logs and re-raises). -/
def paginateBody (fetch : Nat → Nat → Except ε (List (List ν)))
    (columns : List String) (timeOf : Nat → ℚ)
    (page_size : Nat) (max_pages : Option Nat) :
    Nat → Nat → Nat → Option (SessionTrace ε ν)
  | 0, _, _ => none
  | fuel + 1, offset, page_num =>
    if truthyCeiling max_pages page_num then
      some { pages := [], fetched := [], error := none }
    else
      match fetch offset page_size with
      | Except.error e => some { pages := [], fetched := [offset], error := some e }
      | Except.ok results =>
        if results.isEmpty then
          some { pages := [], fetched := [offset], error := none }
        else
          match paginateBody fetch columns timeOf page_size max_pages fuel
              (offset + page_size) (page_num + 1) with
          | none => none
          | some t =>
            some { pages := mkPage columns timeOf offset page_num results :: t.pages
                   fetched := offset :: t.fetched
                   error := t.error }

/-- Connection state of a `SnowflakeCortexPaginator`: `self.connection` is
`None` until `connect` succeeds (`src/cust_client_page.py` lines 8-19). -/
structure PaginatorState where
  connectionOpen : Bool
deriving DecidableEq, Repr

/-- `connect` (`src/cust_client_page.py` lines 12-19): establishes the
Snowflake connection (the successful path sets `self.connection`). -/
def connect (_s : PaginatorState) : PaginatorState :=
  { connectionOpen := true }

/-- Everything observable at the end of one call to
`paginate_cortex_results`: the session trace, whether `cursor.close()` ran
(the `finally` clause, `src/cust_client_page.py` lines 87-88), and the
paginator's connection state after the call. -/
structure SessionResult (ε ν : Type) where
  trace : SessionTrace ε ν
  cursorClosed : Bool
  finalState : PaginatorState
deriving DecidableEq, Repr

/-- `paginate_cortex_results` (`src/cust_client_page.py` lines 21-88):
connects lazily if `self.connection` is unset, opens a cursor, runs the
pagination loop from `offset = 0, page_num = 0`, and always executes
`finally: cursor.close()` — note that `self.connection` itself is never
closed, so `finalState` keeps the connection open for reuse. -/
def paginate_cortex_results (s : PaginatorState)
    (fetch : Nat → Nat → Except ε (List (List ν)))
    (columns : List String) (timeOf : Nat → ℚ)
    (page_size : Nat) (max_pages : Option Nat) (fuel : Nat) :
    Option (SessionResult ε ν) :=
  let s1 := if s.connectionOpen then s else connect s
  match paginateBody fetch columns timeOf page_size max_pages fuel 0 0 with
  | none => none
  | some t => some { trace := t, cursorClosed := true, finalState := s1 }

/-- The canonical LIMIT/OFFSET execution handle over a fixed underlying
result set: the window `[offset, offset + limit)` of `rows`, never failing.
This realises the spec's "offset window" for a result set of `rows.length`
rows, returning at most `limit` rows per window. -/
def limitOffsetFetch (rows : List (List ν)) (offset limit : Nat) :
    Except ε (List (List ν)) :=
  Except.ok ((rows.drop offset).take limit)

/-- Ceiling division on naturals: `ceilDiv n k = ⌈n / k⌉` for `k > 0`. -/
def ceilDiv (n k : Nat) : Nat :=
  (n + k - 1) / k

/-! ## Retry wrapper (`src/error_handling.py`) -/

instance instDecidableEqExcept [DecidableEq ε] [DecidableEq α] :
    DecidableEq (Except ε α)
  | Except.error a, Except.error b =>
    if h : a = b then Decidable.isTrue (congrArg Except.error h)
    else Decidable.isFalse (fun hc => h (Except.error.inj hc))
  | Except.error _, Except.ok _ => Decidable.isFalse (fun hc => Except.noConfusion hc)
  | Except.ok _, Except.error _ => Decidable.isFalse (fun hc => Except.noConfusion hc)
  | Except.ok a, Except.ok b =>
    if h : a = b then Decidable.isTrue (congrArg Except.ok h)
    else Decidable.isFalse (fun hc => h (Except.ok.inj hc))

/-- Observable outcome of one call through the `retry_on_failure` wrapper:
the returned value or the raised exception (`Except.error none` models Python
raising the initial `last_exception = None`), the number of times the wrapped
function was invoked, and the sequence of `time.sleep` durations in order. -/
structure RetryResult (ε α : Type) where
  result : Except (Option ε) α
  attempts : Nat
  waits : List ℚ
deriving DecidableEq, Repr

/-- The `for attempt in range(max_retries)` loop of `retry_on_failure`
(`src/error_handling.py` lines 14-25), with `fuel = max_retries - attempt`
iterations remaining.  On success the value is returned; on failure the
exception is captured and, if `attempt < max_retries - 1`, the wrapper sleeps
`backoff_factor ** attempt` and continues, else it breaks; after the loop the
captured exception is re-raised. -/
def retryAux (f : Nat → Except ε α) (max_retries : Nat) (backoff_factor : ℚ) :
    Nat → Nat → Option ε → RetryResult ε α
  | 0, _, last => { result := Except.error last, attempts := 0, waits := [] }
  | fuel + 1, attempt, _last =>
    match f attempt with
    | Except.ok v => { result := Except.ok v, attempts := 1, waits := [] }
    | Except.error e =>
      if attempt < max_retries - 1 then
        let r := retryAux f max_retries backoff_factor fuel (attempt + 1) (some e)
        { result := r.result, attempts := r.attempts + 1,
          waits := backoff_factor ^ attempt :: r.waits }
      else
        { result := Except.error (some e), attempts := 1, waits := [] }

/-- `retry_on_failure(max_retries, backoff_factor)` applied to a wrapped
operation `f`, where `f i` is the outcome of the operation's `i`-th invocation
(`src/error_handling.py` lines 6-27). -/
def retry_on_failure (f : Nat → Except ε α) (max_retries : Nat)
    (backoff_factor : ℚ) : RetryResult ε α :=
  retryAux f max_retries backoff_factor max_retries 0 none

/-! ## Metrics collector (`src/monitoring.py`) -/

/-- `PaginationMetrics` (`src/monitoring.py` lines 7-17), with
`__post_init__` replacing the `None` default for `errors` by `[]`. -/
structure PaginationMetrics where
  total_pages : Nat
  total_records : Nat
  total_execution_time : ℚ
  avg_page_time : ℚ
  errors : List String
deriving DecidableEq, Repr

/-- A freshly constructed `PaginationMetrics()`: all counters zero, empty
error list (`src/monitoring.py` lines 9-17). -/
def initMetrics : PaginationMetrics :=
  { total_pages := 0, total_records := 0, total_execution_time := 0,
    avg_page_time := 0, errors := [] }

/-- The `for page in ...` loop body of `paginate_with_monitoring`
(`src/monitoring.py` lines 28-32), folded over the pages the underlying
sequence produced: per page, increment `total_pages` and add the page's
`total_records` to `total_records`. -/
def observePages (pages : List (Page ν)) (m : PaginationMetrics) :
    PaginationMetrics :=
  pages.foldl
    (fun acc p =>
      { acc with
        total_pages := acc.total_pages + 1
        total_records := acc.total_records + p.total_records })
    m

/-- The `finally` clause of `paginate_with_monitoring` (`src/monitoring.py`
lines 37-42): record the wall-clock elapsed time of the session and, if any
pages were processed, the average page time. -/
def finalizeMetrics (elapsed : ℚ) (m : PaginationMetrics) :
    PaginationMetrics :=
  let m1 := { m with total_execution_time := elapsed }
  if m1.total_pages > 0 then
    { m1 with avg_page_time := m1.total_execution_time / (m1.total_pages : ℚ) }
  else
    m1

/-- Everything observable from one consumed `paginate_with_monitoring`
session: the pages forwarded to the consumer in order, the exception
re-raised (if any), and the metrics accumulator afterwards. -/
structure MonitorRun (ε ν : Type) where
  forwarded : List (Page ν)
  raised : Option ε
  metrics : PaginationMetrics
deriving DecidableEq, Repr

/-- `paginate_with_monitoring` (`src/monitoring.py` lines 23-42) consumed to
completion.  The underlying `paginate_cortex_results` sequence is given by
the pages it yields (`pages`) followed by the exception it raises, if any
(`err`); `toStr` models Python `str(e)`; `elapsed` is the wall-clock time
`time.time() - start_time` measured in the `finally` clause.  Each page is
counted and forwarded unchanged; an exception is appended to
`metrics.errors` as text and re-raised; the `finally` clause then finalizes
the timing metrics. -/
def paginate_with_monitoring (toStr : ε → String) (pages : List (Page ν))
    (err : Option ε) (elapsed : ℚ) (m0 : PaginationMetrics) : MonitorRun ε ν :=
  let m1 := observePages pages m0
  let m2 :=
    match err with
    | none => m1
    | some e => { m1 with errors := m1.errors ++ [toStr e] }
  { forwarded := pages, raised := err, metrics := finalizeMetrics elapsed m2 }

/-- The dictionary returned by `get_metrics_summary`
(`src/monitoring.py` lines 44-57). -/
structure MetricsSummary where
  total_pages_processed : Nat
  total_records_processed : Nat
  total_execution_time_seconds : ℚ
  average_page_execution_time : ℚ
  records_per_second : ℚ
  error_count : Nat
  errors : List String
deriving DecidableEq, Repr

/-- `get_metrics_summary` (`src/monitoring.py` lines 44-57):
`records_per_second` divides only when `total_execution_time > 0`, else 0. -/
def get_metrics_summary (m : PaginationMetrics) : MetricsSummary :=
  { total_pages_processed := m.total_pages
    total_records_processed := m.total_records
    total_execution_time_seconds := m.total_execution_time
    average_page_execution_time := m.avg_page_time
    records_per_second :=
      if m.total_execution_time > 0 then
        (m.total_records : ℚ) / m.total_execution_time
      else 0
    error_count := m.errors.length
    errors := m.errors }

/-! ## Redis page cache (`src/redis_cache_mgmt.py`)

The Redis client is an environment: `redisGet key` returns the stored bytes
or `none` when the key is absent, or `Except.error` when the backend raises
(for example `redis.ConnectionError`); `redisSetex key ttl value` likewise
may raise.  Pickle round-tripping is modelled by the caller-supplied `loads`
and `dumps` on an opaque byte type `β`. -/

/-- The cache key `f"cortex_page:{query_hash}:{page_num}"` built by both
cache methods (`src/redis_cache_mgmt.py` lines 13 and 22). -/
def cache_key (query_hash : String) (page_num : Nat) : String :=
  "cortex_page:" ++ query_hash ++ ":" ++ toString page_num

/-- `self.cache_ttl = 3600` (`src/redis_cache_mgmt.py` line 9). -/
def cache_ttl : Nat := 3600

/-- `get_cached_page` (`src/redis_cache_mgmt.py` lines 11-18): reads the key
from Redis with no exception handling — a backend failure propagates — and
unpickles the stored bytes when present (`if cached_data:` distinguishes a
stored value from Redis's `None` for an absent key). -/
def get_cached_page (redisGet : String → Except ε (Option β)) (loads : β → π)
    (query_hash : String) (page_num : Nat) : Except ε (Option π) := do
  let cached_data ← redisGet (cache_key query_hash page_num)
  match cached_data with
  | some d => return some (loads d)
  | none => return none

/-- `cache_page` (`src/redis_cache_mgmt.py` lines 20-27): pickles the page
and stores it under the cache key with `setex` and `self.cache_ttl`, with no
exception handling — a backend failure propagates. -/
def cache_page (redisSetex : String → Nat → β → Except ε Unit) (dumps : π → β)
    (query_hash : String) (page_num : Nat) (page_data : π) : Except ε Unit :=
  redisSetex (cache_key query_hash page_num) cache_ttl (dumps page_data)


/-! ## Arithmetic helper lemmas -/

theorem ceilDiv_zero_left (k : Nat) (hk : 0 < k) : ceilDiv 0 k = 0 := by
  unfold ceilDiv
  exact Nat.div_eq_of_lt (by omega)

theorem ceilDiv_succ (n k : Nat) (hk : 0 < k) :
    ceilDiv (n + 1) k = n / k + 1 := by
  unfold ceilDiv
  have h1 : n + 1 + k - 1 = n + k := by omega
  rw [h1]
  exact Nat.add_div_right n hk

theorem ceilDiv_step (n k : Nat) (hn : 0 < n) (hk : 0 < k) :
    ceilDiv n k = ceilDiv (n - k) k + 1 := by
  obtain ⟨m, rfl⟩ : ∃ m, n = m + 1 := ⟨n - 1, by omega⟩
  rw [ceilDiv_succ m k hk]
  rcases Nat.lt_or_ge m k with hmk | hmk
  · have h0 : m + 1 - k = 0 := by omega
    have hm : m / k = 0 := Nat.div_eq_of_lt hmk
    rw [h0, ceilDiv_zero_left k hk, hm]
  · have hsub : m + 1 - k = (m - k) + 1 := by omega
    rw [hsub, ceilDiv_succ (m - k) k hk]
    have hm : m = (m - k) + k := by omega
    have : m / k = (m - k) / k + 1 := by
      conv_lhs => rw [hm]
      exact Nat.add_div_right (m - k) hk
    rw [this]

/-! ## Branch equations and invariants of the pagination loop -/

section Paginator

variable {ε ν : Type} (fetch : Nat → Nat → Except ε (List (List ν)))
variable (columns : List String) (timeOf : Nat → ℚ) (ps : Nat) (mp : Option Nat)

theorem paginateBody_zero (offset page_num : Nat) :
    paginateBody fetch columns timeOf ps mp 0 offset page_num = none := rfl

theorem paginateBody_ceiling {page_num : Nat} (n offset : Nat)
    (hc : truthyCeiling mp page_num = true) :
    paginateBody fetch columns timeOf ps mp (n + 1) offset page_num =
      some { pages := [], fetched := [], error := none } := by
  rw [paginateBody, if_pos hc]

theorem paginateBody_error {offset page_num : Nat} {e : ε} (n : Nat)
    (hc : truthyCeiling mp page_num = false)
    (hf : fetch offset ps = Except.error e) :
    paginateBody fetch columns timeOf ps mp (n + 1) offset page_num =
      some { pages := [], fetched := [offset], error := some e } := by
  rw [paginateBody, if_neg (by simp [hc]), hf]

theorem paginateBody_empty {offset page_num : Nat} (n : Nat)
    (hc : truthyCeiling mp page_num = false)
    (hf : fetch offset ps = Except.ok ([] : List (List ν))) :
    paginateBody fetch columns timeOf ps mp (n + 1) offset page_num =
      some { pages := [], fetched := [offset], error := none } := by
  rw [paginateBody, if_neg (by simp [hc]), hf]
  rfl

theorem paginateBody_cons {offset page_num : Nat} {results : List (List ν)} (n : Nat)
    (hc : truthyCeiling mp page_num = false)
    (hf : fetch offset ps = Except.ok results)
    (hne : results.isEmpty = false) :
    paginateBody fetch columns timeOf ps mp (n + 1) offset page_num =
      Option.map
        (fun t =>
          { pages := mkPage columns timeOf offset page_num results :: t.pages
            fetched := offset :: t.fetched
            error := t.error })
        (paginateBody fetch columns timeOf ps mp n (offset + ps) (page_num + 1)) := by
  rw [paginateBody, if_neg (by simp [hc]), hf]
  dsimp only
  rw [if_neg (by simp [hne])]
  cases paginateBody fetch columns timeOf ps mp n (offset + ps) (page_num + 1) <;> rfl

/-- Offsets substituted into successive fetches form an arithmetic
progression starting at the loop's entry offset with step `page_size`. -/
theorem paginateBody_fetched :
    ∀ fuel offset page_num t,
      paginateBody fetch columns timeOf ps mp fuel offset page_num = some t →
      t.fetched = List.range' offset t.fetched.length ps := by
  intro fuel
  induction fuel with
  | zero =>
    intro offset page_num t h
    exact absurd h (by simp [paginateBody_zero])
  | succ n ih =>
    intro offset page_num t h
    cases hc : truthyCeiling mp page_num with
    | true =>
      rw [paginateBody_ceiling fetch columns timeOf ps mp n offset hc] at h
      injection h with h
      subst h
      rfl
    | false =>
      cases hf : fetch offset ps with
      | error e =>
        rw [paginateBody_error fetch columns timeOf ps mp n hc hf] at h
        injection h with h
        subst h
        rfl
      | ok results =>
        cases hres : results.isEmpty with
        | true =>
          cases results with
          | nil =>
            rw [paginateBody_empty fetch columns timeOf ps mp n hc hf] at h
            injection h with h
            subst h
            rfl
          | cons a as => simp at hres
        | false =>
          rw [paginateBody_cons fetch columns timeOf ps mp n hc hf hres] at h
          cases hrec : paginateBody fetch columns timeOf ps mp n (offset + ps) (page_num + 1) with
          | none => rw [hrec] at h; simp at h
          | some t' =>
            rw [hrec] at h
            injection h with h
            subst h
            have ih' := ih (offset + ps) (page_num + 1) t' hrec
            show offset :: t'.fetched = List.range' offset (t'.fetched.length + 1) ps
            rw [List.range'_succ]
            rw [← ih']

/-- Every page a completed session yielded has `total_records` equal to the
length of its `data` list and `total_records > 0`. -/
theorem paginateBody_pages_wf :
    ∀ fuel offset page_num t,
      paginateBody fetch columns timeOf ps mp fuel offset page_num = some t →
      ∀ p ∈ t.pages, p.total_records = p.data.length ∧ 0 < p.total_records := by
  intro fuel
  induction fuel with
  | zero =>
    intro offset page_num t h
    exact absurd h (by simp [paginateBody_zero])
  | succ n ih =>
    intro offset page_num t h
    cases hc : truthyCeiling mp page_num with
    | true =>
      rw [paginateBody_ceiling fetch columns timeOf ps mp n offset hc] at h
      injection h with h
      subst h
      intro p hp
      simp at hp
    | false =>
      cases hf : fetch offset ps with
      | error e =>
        rw [paginateBody_error fetch columns timeOf ps mp n hc hf] at h
        injection h with h
        subst h
        intro p hp
        simp at hp
      | ok results =>
        cases hres : results.isEmpty with
        | true =>
          cases results with
          | nil =>
            rw [paginateBody_empty fetch columns timeOf ps mp n hc hf] at h
            injection h with h
            subst h
            intro p hp
            simp at hp
          | cons a as => simp at hres
        | false =>
          rw [paginateBody_cons fetch columns timeOf ps mp n hc hf hres] at h
          cases hrec : paginateBody fetch columns timeOf ps mp n (offset + ps) (page_num + 1) with
          | none => rw [hrec] at h; simp at h
          | some t' =>
            rw [hrec] at h
            injection h with h
            subst h
            intro p hp
            simp only [List.mem_cons] at hp
            rcases hp with hp | hp
            · subst hp
              constructor
              · rfl
              · show 0 < (results.map (fun row => columns.zip row)).length
                rw [List.length_map]
                cases results with
                | nil => simp at hres
                | cons a as => simp
            · exact ih (offset + ps) (page_num + 1) t' hrec p hp

/-- Complete-run correctness over the canonical LIMIT/OFFSET handle with no
ceiling: the session consumes the remaining rows in `ceilDiv` many pages
whose record counts are bounded by `page_size` and sum to the number of
remaining rows. -/
theorem paginateBody_limitOffset (rows : List (List ν)) (hps : 0 < ps) :
    ∀ fuel offset page_num, (rows.drop offset).length < fuel →
      ∃ t : SessionTrace ε ν,
        paginateBody (limitOffsetFetch rows) columns timeOf ps none fuel offset page_num = some t ∧
        t.error = none ∧
        t.pages.length = ceilDiv (rows.drop offset).length ps ∧
        (t.pages.map (fun p => p.total_records)).sum = (rows.drop offset).length ∧
        ∀ p ∈ t.pages, p.total_records ≤ ps := by
  intro fuel
  induction fuel with
  | zero => intro offset page_num hlt; omega
  | succ n ih =>
    intro offset page_num hlt
    have hc : truthyCeiling none page_num = false := rfl
    by_cases hrest : rows.drop offset = []
    · have hf : limitOffsetFetch (ε := ε) rows offset ps = Except.ok ([] : List (List ν)) := by
        unfold limitOffsetFetch
        rw [hrest, List.take_nil]
      refine ⟨{ pages := [], fetched := [offset], error := none },
        paginateBody_empty (limitOffsetFetch rows) columns timeOf ps none n hc hf, rfl, ?_, ?_, ?_⟩
      · simp [hrest, ceilDiv_zero_left ps hps]
      · simp [hrest]
      · intro p hp
        simp at hp
    · have hpos : 0 < (rows.drop offset).length := List.length_pos.mpr hrest
      have hf : limitOffsetFetch (ε := ε) rows offset ps =
          Except.ok ((rows.drop offset).take ps) := rfl
      have hres : ((rows.drop offset).take ps).isEmpty = false := by
        cases htake : (rows.drop offset).take ps with
        | nil =>
          exfalso
          have h0 := congrArg List.length htake
          rw [List.length_take] at h0
          simp only [List.length_nil] at h0
          rcases Nat.min_eq_zero_iff.mp h0 with h | h <;> omega
        | cons a as => rfl
      rw [paginateBody_cons (limitOffsetFetch rows) columns timeOf ps none n hc hf hres]
      have hL1 : (rows.drop (offset + ps)).length = (rows.drop offset).length - ps := by
        rw [List.length_drop, List.length_drop]
        omega
      have hlt' : (rows.drop (offset + ps)).length < n := by
        rw [hL1]
        omega
      obtain ⟨t', ht', herr', hlenp', hsum', hble'⟩ := ih (offset + ps) (page_num + 1) hlt'
      rw [ht']
      simp only [Option.map_some']
      refine ⟨_, rfl, herr', ?_, ?_, ?_⟩
      · show t'.pages.length + 1 = ceilDiv (rows.drop offset).length ps
        rw [hlenp', hL1]
        exact (ceilDiv_step (rows.drop offset).length ps hpos hps).symm
      · show (mkPage columns timeOf offset page_num ((rows.drop offset).take ps)).total_records +
            (t'.pages.map (fun p => p.total_records)).sum = (rows.drop offset).length
        rw [hsum', hL1]
        show (((rows.drop offset).take ps).map (fun row => columns.zip row)).length +
            ((rows.drop offset).length - ps) = (rows.drop offset).length
        rw [List.length_map, List.length_take]
        omega
      · intro p hp
        simp only [List.mem_cons] at hp
        rcases hp with hp | hp
        · subst hp
          show (((rows.drop offset).take ps).map (fun row => columns.zip row)).length ≤ ps
          rw [List.length_map, List.length_take]
          omega
        · exact hble' p hp

/-- Complete-run correctness over the canonical LIMIT/OFFSET handle with a
positive `max_pages` ceiling `k`: the page count is the untruncated count
capped at the remaining page budget `k - page_num`. -/
theorem paginateBody_limitOffset_ceiling (rows : List (List ν)) (hps : 0 < ps)
    (k : Nat) (hk : 0 < k) :
    ∀ fuel offset page_num, (rows.drop offset).length < fuel →
      ∃ t : SessionTrace ε ν,
        paginateBody (limitOffsetFetch rows) columns timeOf ps (some k) fuel offset page_num = some t ∧
        t.error = none ∧
        t.pages.length = min (ceilDiv (rows.drop offset).length ps) (k - page_num) ∧
        ∀ p ∈ t.pages, p.total_records ≤ ps := by
  intro fuel
  induction fuel with
  | zero => intro offset page_num hlt; omega
  | succ n ih =>
    intro offset page_num hlt
    by_cases hpk : k ≤ page_num
    · have hc : truthyCeiling (some k) page_num = true := by
        simp only [truthyCeiling, Bool.and_eq_true, decide_eq_true_eq]
        omega
      refine ⟨{ pages := [], fetched := [], error := none },
        paginateBody_ceiling (limitOffsetFetch rows) columns timeOf ps (some k) n offset hc,
        rfl, ?_, ?_⟩
      · show ([] : List (Page ν)).length = min (ceilDiv (rows.drop offset).length ps) (k - page_num)
        simp only [List.length_nil]
        omega
      · intro p hp
        simp at hp
    · have hc : truthyCeiling (some k) page_num = false := by
        simp only [truthyCeiling, Bool.and_eq_false_iff, decide_eq_false_iff_not]
        omega
      by_cases hrest : rows.drop offset = []
      · have hf : limitOffsetFetch (ε := ε) rows offset ps = Except.ok ([] : List (List ν)) := by
          unfold limitOffsetFetch
          rw [hrest, List.take_nil]
        refine ⟨{ pages := [], fetched := [offset], error := none },
          paginateBody_empty (limitOffsetFetch rows) columns timeOf ps (some k) n hc hf,
          rfl, ?_, ?_⟩
        · rw [hrest]
          simp only [List.length_nil, List.length_nil]
          rw [ceilDiv_zero_left ps hps]
          omega
        · intro p hp
          simp at hp
      · have hpos : 0 < (rows.drop offset).length := List.length_pos.mpr hrest
        have hf : limitOffsetFetch (ε := ε) rows offset ps =
            Except.ok ((rows.drop offset).take ps) := rfl
        have hres : ((rows.drop offset).take ps).isEmpty = false := by
          cases htake : (rows.drop offset).take ps with
          | nil =>
            exfalso
            have h0 := congrArg List.length htake
            rw [List.length_take] at h0
            simp only [List.length_nil] at h0
            rcases Nat.min_eq_zero_iff.mp h0 with h | h <;> omega
          | cons a as => rfl
        rw [paginateBody_cons (limitOffsetFetch rows) columns timeOf ps (some k) n hc hf hres]
        have hL1 : (rows.drop (offset + ps)).length = (rows.drop offset).length - ps := by
          rw [List.length_drop, List.length_drop]
          omega
        have hlt' : (rows.drop (offset + ps)).length < n := by
          rw [hL1]
          omega
        obtain ⟨t', ht', herr', hlenp', hble'⟩ := ih (offset + ps) (page_num + 1) hlt'
        rw [ht']
        simp only [Option.map_some']
        refine ⟨_, rfl, herr', ?_, ?_⟩
        · show t'.pages.length + 1 = min (ceilDiv (rows.drop offset).length ps) (k - page_num)
          rw [hlenp', hL1]
          rw [ceilDiv_step (rows.drop offset).length ps hpos hps]
          omega
        · intro p hp
          simp only [List.mem_cons] at hp
          rcases hp with hp | hp
          · subst hp
            show (((rows.drop offset).take ps).map (fun row => columns.zip row)).length ≤ ps
            rw [List.length_map, List.length_take]
            omega
          · exact hble' p hp

/-- When the first `j` offset windows are non-empty and window `j` is empty,
the loop stops right after the `(j+1)`-th fetch with `j` pages and no
error — an empty fetch always terminates the session and no further fetch is
issued. -/
theorem paginateBody_stop_empty :
    ∀ j fuel offset page_num,
      (∀ i, i < j → ∃ rs, rs ≠ [] ∧ fetch (offset + ps * i) ps = Except.ok rs) →
      fetch (offset + ps * j) ps = Except.ok [] →
      j < fuel →
      ∃ t : SessionTrace ε ν,
        paginateBody fetch columns timeOf ps none fuel offset page_num = some t ∧
        t.pages.length = j ∧ t.fetched.length = j + 1 ∧ t.error = none := by
  intro j
  induction j with
  | zero =>
    intro fuel offset page_num _ hj hfuel
    obtain ⟨n, rfl⟩ : ∃ n, fuel = n + 1 := ⟨fuel - 1, by omega⟩
    have hc : truthyCeiling none page_num = false := rfl
    rw [Nat.mul_zero, Nat.add_zero] at hj
    exact ⟨_, paginateBody_empty fetch columns timeOf ps none n hc hj, rfl, rfl, rfl⟩
  | succ j ihj =>
    intro fuel offset page_num hlt hj hfuel
    obtain ⟨n, rfl⟩ : ∃ n, fuel = n + 1 := ⟨fuel - 1, by omega⟩
    have hc : truthyCeiling none page_num = false := rfl
    obtain ⟨rs0, hrs0ne, hrs0⟩ := hlt 0 (by omega)
    rw [Nat.mul_zero, Nat.add_zero] at hrs0
    have hres : rs0.isEmpty = false := by
      cases rs0 with
      | nil => exact absurd rfl hrs0ne
      | cons a as => rfl
    rw [paginateBody_cons fetch columns timeOf ps none n hc hrs0 hres]
    have hlt' : ∀ i, i < j → ∃ rs, rs ≠ [] ∧ fetch (offset + ps + ps * i) ps = Except.ok rs := by
      intro i hi
      obtain ⟨rs, hne2, hfe⟩ := hlt (i + 1) (by omega)
      refine ⟨rs, hne2, ?_⟩
      have harith : offset + ps * (i + 1) = offset + ps + ps * i := by ring
      rw [← harith]
      exact hfe
    have hj' : fetch (offset + ps + ps * j) ps = Except.ok [] := by
      have harith : offset + ps * (j + 1) = offset + ps + ps * j := by ring
      rw [← harith]
      exact hj
    obtain ⟨t', ht', hp', hf', he'⟩ := ihj n (offset + ps) (page_num + 1) hlt' hj' (by omega)
    rw [ht']
    simp only [Option.map_some']
    refine ⟨_, rfl, ?_, ?_, he'⟩
    · show t'.pages.length + 1 = j + 1
      omega
    · show t'.fetched.length + 1 = j + 1 + 1
      omega

/-- When the first `j` offset windows are non-empty and the fetch of window
`j` raises, the loop stops right after that fetch: `j` pages were yielded,
`j + 1` fetches were issued, and the raised exception is propagated. -/
theorem paginateBody_stop_error (e : ε) :
    ∀ j fuel offset page_num,
      (∀ i, i < j → ∃ rs, rs ≠ [] ∧ fetch (offset + ps * i) ps = Except.ok rs) →
      fetch (offset + ps * j) ps = Except.error e →
      j < fuel →
      ∃ t : SessionTrace ε ν,
        paginateBody fetch columns timeOf ps none fuel offset page_num = some t ∧
        t.pages.length = j ∧ t.fetched.length = j + 1 ∧ t.error = some e := by
  intro j
  induction j with
  | zero =>
    intro fuel offset page_num _ hj hfuel
    obtain ⟨n, rfl⟩ : ∃ n, fuel = n + 1 := ⟨fuel - 1, by omega⟩
    have hc : truthyCeiling none page_num = false := rfl
    rw [Nat.mul_zero, Nat.add_zero] at hj
    exact ⟨_, paginateBody_error fetch columns timeOf ps none n hc hj, rfl, rfl, rfl⟩
  | succ j ihj =>
    intro fuel offset page_num hlt hj hfuel
    obtain ⟨n, rfl⟩ : ∃ n, fuel = n + 1 := ⟨fuel - 1, by omega⟩
    have hc : truthyCeiling none page_num = false := rfl
    obtain ⟨rs0, hrs0ne, hrs0⟩ := hlt 0 (by omega)
    rw [Nat.mul_zero, Nat.add_zero] at hrs0
    have hres : rs0.isEmpty = false := by
      cases rs0 with
      | nil => exact absurd rfl hrs0ne
      | cons a as => rfl
    rw [paginateBody_cons fetch columns timeOf ps none n hc hrs0 hres]
    have hlt' : ∀ i, i < j → ∃ rs, rs ≠ [] ∧ fetch (offset + ps + ps * i) ps = Except.ok rs := by
      intro i hi
      obtain ⟨rs, hne2, hfe⟩ := hlt (i + 1) (by omega)
      refine ⟨rs, hne2, ?_⟩
      have harith : offset + ps * (i + 1) = offset + ps + ps * i := by ring
      rw [← harith]
      exact hfe
    have hj' : fetch (offset + ps + ps * j) ps = Except.error e := by
      have harith : offset + ps * (j + 1) = offset + ps + ps * j := by ring
      rw [← harith]
      exact hj
    obtain ⟨t', ht', hp', hf', he'⟩ := ihj n (offset + ps) (page_num + 1) hlt' hj' (by omega)
    rw [ht']
    simp only [Option.map_some']
    refine ⟨_, rfl, ?_, ?_, he'⟩
    · show t'.pages.length + 1 = j + 1
      omega
    · show t'.fetched.length + 1 = j + 1 + 1
      omega

/-- With a positive ceiling `k` and a handle whose every window is
non-empty, the session stops by the ceiling check (issued before any further
fetch) with exactly `k - page_num` more pages and as many fetches, raising
no error. -/
theorem paginateBody_ceiling_stop (k : Nat) (hk : 0 < k)
    (hne : ∀ offset, ∃ rs, rs ≠ [] ∧ fetch offset ps = Except.ok rs) :
    ∀ fuel offset page_num, page_num ≤ k → k - page_num < fuel →
      ∃ t : SessionTrace ε ν,
        paginateBody fetch columns timeOf ps (some k) fuel offset page_num = some t ∧
        t.pages.length = k - page_num ∧ t.fetched.length = k - page_num ∧ t.error = none := by
  intro fuel
  induction fuel with
  | zero => intro offset page_num hpk hfu; omega
  | succ n ih =>
    intro offset page_num hpk hfu
    by_cases hge : k ≤ page_num
    · have hc : truthyCeiling (some k) page_num = true := by
        simp only [truthyCeiling, Bool.and_eq_true, decide_eq_true_eq]
        omega
      refine ⟨{ pages := [], fetched := [], error := none },
        paginateBody_ceiling fetch columns timeOf ps (some k) n offset hc, ?_, ?_, rfl⟩
      · simp only [List.length_nil]
        omega
      · simp only [List.length_nil]
        omega
    · have hc : truthyCeiling (some k) page_num = false := by
        simp only [truthyCeiling, Bool.and_eq_false_iff, decide_eq_false_iff_not]
        omega
      obtain ⟨rs0, hrs0ne, hrs0⟩ := hne offset
      have hres : rs0.isEmpty = false := by
        cases rs0 with
        | nil => exact absurd rfl hrs0ne
        | cons a as => rfl
      rw [paginateBody_cons fetch columns timeOf ps (some k) n hc hrs0 hres]
      obtain ⟨t', ht', hp', hf', he'⟩ := ih (offset + ps) (page_num + 1) (by omega) (by omega)
      rw [ht']
      simp only [Option.map_some']
      refine ⟨_, rfl, ?_, ?_, he'⟩
      · show t'.pages.length + 1 = k - page_num
        omega
      · show t'.fetched.length + 1 = k - page_num
        omega

/-- With no ceiling and a handle whose every window is non-empty, the loop
never reaches an exit: for every fuel amount the simulation runs out of
fuel — the session does not terminate except by an empty fetch, the
ceiling, or an exception. -/
theorem paginateBody_no_stop
    (hne : ∀ offset, ∃ rs, rs ≠ [] ∧ fetch offset ps = Except.ok rs) :
    ∀ fuel offset page_num,
      paginateBody fetch columns timeOf ps none fuel offset page_num = none := by
  intro fuel
  induction fuel with
  | zero => intro offset page_num; rfl
  | succ n ih =>
    intro offset page_num
    have hc : truthyCeiling none page_num = false := rfl
    obtain ⟨rs0, hrs0ne, hrs0⟩ := hne offset
    have hres : rs0.isEmpty = false := by
      cases rs0 with
      | nil => exact absurd rfl hrs0ne
      | cons a as => rfl
    rw [paginateBody_cons fetch columns timeOf ps none n hc hrs0 hres,
      ih (offset + ps) (page_num + 1)]
    rfl

/-- `max_pages = 0` is falsy in Python, so the ceiling check is skipped on
every iteration: the loop behaves identically to `max_pages = None`. -/
theorem paginateBody_maxPages_zero :
    ∀ fuel offset page_num,
      paginateBody fetch columns timeOf ps (some 0) fuel offset page_num =
      paginateBody fetch columns timeOf ps none fuel offset page_num := by
  intro fuel
  induction fuel with
  | zero => intro offset page_num; rfl
  | succ n ih =>
    intro offset page_num
    have hc0 : truthyCeiling (some 0) page_num = false := rfl
    have hcn : truthyCeiling none page_num = false := rfl
    cases hf : fetch offset ps with
    | error e =>
      rw [paginateBody_error fetch columns timeOf ps (some 0) n hc0 hf,
        paginateBody_error fetch columns timeOf ps none n hcn hf]
    | ok results =>
      cases hres : results.isEmpty with
      | true =>
        cases results with
        | nil =>
          rw [paginateBody_empty fetch columns timeOf ps (some 0) n hc0 hf,
            paginateBody_empty fetch columns timeOf ps none n hcn hf]
        | cons a as => simp at hres
      | false =>
        rw [paginateBody_cons fetch columns timeOf ps (some 0) n hc0 hf hres,
          paginateBody_cons fetch columns timeOf ps none n hcn hf hres,
          ih (offset + ps) (page_num + 1)]

/-- Introduction form for the wrapper: a completed loop body yields the
session result with `cursorClosed = true` (the `finally` clause) and the
post-call connection state. -/
theorem paginate_cortex_results_eq (s : PaginatorState) (fuel : Nat)
    (t : SessionTrace ε ν)
    (h : paginateBody fetch columns timeOf ps mp fuel 0 0 = some t) :
    paginate_cortex_results s fetch columns timeOf ps mp fuel =
      some { trace := t, cursorClosed := true,
             finalState := if s.connectionOpen then s else connect s } := by
  unfold paginate_cortex_results
  rw [h]

/-- A fuel-exhausted loop body makes the wrapper fuel-exhausted too. -/
theorem paginate_cortex_results_fuelout (s : PaginatorState) (fuel : Nat)
    (h : paginateBody fetch columns timeOf ps mp fuel 0 0 = (none : Option (SessionTrace ε ν))) :
    paginate_cortex_results s fetch columns timeOf ps mp fuel = none := by
  unfold paginate_cortex_results
  rw [h]

/-- Inversion for the wrapper: any completed session result came from a
completed loop body, ran `cursor.close()`, and left the connection open. -/
theorem paginate_cortex_results_inv (s : PaginatorState) (fuel : Nat)
    (r : SessionResult ε ν)
    (h : paginate_cortex_results s fetch columns timeOf ps mp fuel = some r) :
    paginateBody fetch columns timeOf ps mp fuel 0 0 = some r.trace ∧
    r.cursorClosed = true ∧
    r.finalState = (if s.connectionOpen then s else connect s) := by
  unfold paginate_cortex_results at h
  cases hb : paginateBody fetch columns timeOf ps mp fuel 0 0 with
  | none =>
    rw [hb] at h
    simp at h
  | some t =>
    rw [hb] at h
    injection h with h
    subst h
    exact ⟨rfl, rfl, rfl⟩

end Paginator

/-- Loop invariant of `retry_on_failure` when every attempt from `attempt`
up to `mr - 2` fails and attempt `mr - 1` succeeds: the success value is
returned after `mr - attempt` invocations, having slept
`backoff ^ i` for each failed attempt index `i`. -/
theorem retryAux_fail_then_ok (f : Nat → Except ε α) (mr : Nat) (b : ℚ) (v : α) :
    ∀ fuel attempt last, fuel = mr - attempt → attempt < mr →
      (∀ i, attempt ≤ i → i < mr - 1 → ∃ e, f i = Except.error e) →
      f (mr - 1) = Except.ok v →
      retryAux f mr b fuel attempt last =
        { result := Except.ok v, attempts := mr - attempt,
          waits := (List.range' attempt (mr - 1 - attempt)).map (fun i => b ^ i) } := by
  intro fuel
  induction fuel with
  | zero => intro attempt last hfu hlt hfail hok; omega
  | succ n ih =>
    intro attempt last hfu hlt hfail hok
    by_cases hlast : attempt = mr - 1
    · subst hlast
      rw [retryAux, hok]
      have h1 : mr - (mr - 1) = 1 := by omega
      have h2 : mr - 1 - (mr - 1) = 0 := by omega
      rw [h1, h2]
      rfl
    · obtain ⟨e, he⟩ := hfail attempt (le_refl _) (by omega)
      rw [retryAux, he]
      dsimp only
      rw [if_pos (by omega : attempt < mr - 1)]
      rw [ih (attempt + 1) (some e) (by omega) (by omega)
        (fun i hi1 hi2 => hfail i (by omega) hi2) hok]
      have h2 : mr - (attempt + 1) + 1 = mr - attempt := by omega
      have h3 : mr - 1 - attempt = (mr - 1 - (attempt + 1)) + 1 := by omega
      dsimp only
      rw [h3, List.range'_succ, List.map_cons, h2]

/-- Loop invariant of `retry_on_failure` when every attempt from `attempt`
to `mr - 1` fails: the loop performs `mr - attempt` invocations, sleeps
after every failure except the last, and re-raises exactly the exception
captured on the last attempt. -/
theorem retryAux_all_fail (f : Nat → Except ε α) (mr : Nat) (b : ℚ) (g : Nat → ε) :
    ∀ fuel attempt last, fuel = mr - attempt → attempt < mr →
      (∀ i, attempt ≤ i → i < mr → f i = Except.error (g i)) →
      retryAux f mr b fuel attempt last =
        { result := Except.error (some (g (mr - 1))), attempts := mr - attempt,
          waits := (List.range' attempt (mr - 1 - attempt)).map (fun i => b ^ i) } := by
  intro fuel
  induction fuel with
  | zero => intro attempt last hfu hlt hfail; omega
  | succ n ih =>
    intro attempt last hfu hlt hfail
    have he : f attempt = Except.error (g attempt) := hfail attempt (le_refl _) hlt
    by_cases hlast : attempt = mr - 1
    · rw [retryAux, he]
      dsimp only
      rw [if_neg (by omega : ¬ attempt < mr - 1)]
      have h1 : mr - attempt = 1 := by omega
      have h2 : mr - 1 - attempt = 0 := by omega
      rw [h1, h2, hlast]
      rfl
    · rw [retryAux, he]
      dsimp only
      rw [if_pos (by omega : attempt < mr - 1)]
      rw [ih (attempt + 1) (some (g attempt)) (by omega) (by omega)
        (fun i hi1 hi2 => hfail i (by omega) hi2)]
      have h2 : mr - (attempt + 1) + 1 = mr - attempt := by omega
      have h3 : mr - 1 - attempt = (mr - 1 - (attempt + 1)) + 1 := by omega
      dsimp only
      rw [h3, List.range'_succ, List.map_cons, h2]

/-- Folding the monitoring loop over a page list adds the page count to
`total_pages` and the records to `total_records`, touching nothing else. -/
theorem observePages_spec (pages : List (Page ν)) :
    ∀ m : PaginationMetrics,
      observePages pages m =
        { m with
          total_pages := m.total_pages + pages.length
          total_records := m.total_records + (pages.map (fun p => p.total_records)).sum } := by
  induction pages with
  | nil =>
    intro m
    show m = _
    cases m
    simp
  | cons p rest ih =>
    intro m
    show observePages rest
      { m with
        total_pages := m.total_pages + 1
        total_records := m.total_records + p.total_records } = _
    rw [ih]
    cases m
    simp only [List.map_cons, List.sum_cons, List.length_cons, PaginationMetrics.mk.injEq]
    refine ⟨by omega, by omega, trivial, trivial, trivial⟩


/-- The `finally` clause of the monitor sets the elapsed time and possibly
the average page time, leaving the counters and error list untouched. -/
theorem finalizeMetrics_fields (elapsed : ℚ) (m : PaginationMetrics) :
    (finalizeMetrics elapsed m).total_pages = m.total_pages ∧
    (finalizeMetrics elapsed m).total_records = m.total_records ∧
    (finalizeMetrics elapsed m).total_execution_time = elapsed ∧
    (finalizeMetrics elapsed m).errors = m.errors := by
  unfold finalizeMetrics
  by_cases h : m.total_pages > 0
  · rw [if_pos h]
    exact ⟨rfl, rfl, rfl, rfl⟩
  · rw [if_neg h]
    exact ⟨rfl, rfl, rfl, rfl⟩

/-! ## Claims -/

/-- C1: for every `page_size > 0` and an underlying result set of `N` rows
served through the LIMIT/OFFSET execution handle (which returns at most
`page_size` rows per offset window), iterating `paginate_cortex_results`
yields exactly `ceil(N / page_size)` pages — or `min (ceil(N / page_size)) k`
pages, i.e. fewer, when a positive `max_pages = k` truncates — every yielded
page has `total_records ≤ page_size`, and in the untruncated session the
`total_records` of all yielded pages sum to `N`. -/
theorem claim_C1_page_partition {ε ν : Type} (s : PaginatorState)
    (rows : List (List ν)) (columns : List String) (timeOf : Nat → ℚ)
    (ps : Nat) (hps : 0 < ps) :
    (∃ r : SessionResult ε ν,
      paginate_cortex_results s (limitOffsetFetch rows) columns timeOf ps none
          (rows.length + 1) = some r ∧
      r.trace.error = none ∧
      r.trace.pages.length = ceilDiv rows.length ps ∧
      (r.trace.pages.map (fun p => p.total_records)).sum = rows.length ∧
      ∀ p ∈ r.trace.pages, p.total_records ≤ ps) ∧
    (∀ k : Nat, 0 < k →
      ∃ r : SessionResult ε ν,
        paginate_cortex_results s (limitOffsetFetch rows) columns timeOf ps (some k)
            (rows.length + 1) = some r ∧
        r.trace.error = none ∧
        r.trace.pages.length = min (ceilDiv rows.length ps) k ∧
        ∀ p ∈ r.trace.pages, p.total_records ≤ ps) := by
  constructor
  · obtain ⟨t, ht, herr, hlen, hsum, hble⟩ :=
      paginateBody_limitOffset (ε := ε) columns timeOf ps rows hps (rows.length + 1) 0 0
        (by rw [List.drop_zero]; omega)
    rw [List.drop_zero] at hlen hsum
    exact ⟨_, paginate_cortex_results_eq (limitOffsetFetch rows) columns timeOf ps none s _ t ht,
      herr, hlen, hsum, hble⟩
  · intro k hk
    obtain ⟨t, ht, herr, hlen, hble⟩ :=
      paginateBody_limitOffset_ceiling (ε := ε) columns timeOf ps rows hps k hk
        (rows.length + 1) 0 0 (by rw [List.drop_zero]; omega)
    rw [List.drop_zero, Nat.sub_zero] at hlen
    exact ⟨_, paginate_cortex_results_eq (limitOffsetFetch rows) columns timeOf ps (some k) s _ t ht,
      herr, hlen, hble⟩

/-- Witness for C1: a three-row result set with `page_size = 2`, untruncated
and truncated at `max_pages = 1`. -/
theorem claim_C1_page_partition_witness :
    0 < 2 ∧
    (∃ r : SessionResult String Nat,
      paginate_cortex_results ⟨true⟩ (limitOffsetFetch [[1], [2], [3]]) ["c"]
          (fun _ => 0) 2 none 4 = some r ∧
      r.trace.error = none ∧
      r.trace.pages.length = ceilDiv 3 2 ∧
      (r.trace.pages.map (fun p => p.total_records)).sum = 3 ∧
      ∀ p ∈ r.trace.pages, p.total_records ≤ 2) ∧
    (∃ r : SessionResult String Nat,
      paginate_cortex_results ⟨true⟩ (limitOffsetFetch [[1], [2], [3]]) ["c"]
          (fun _ => 0) 2 (some 1) 4 = some r ∧
      r.trace.error = none ∧
      r.trace.pages.length = min (ceilDiv 3 2) 1 ∧
      ∀ p ∈ r.trace.pages, p.total_records ≤ 2) :=
  ⟨by decide,
   (claim_C1_page_partition ⟨true⟩ [[1], [2], [3]] ["c"] (fun _ => 0) 2 (by decide)).1,
   (claim_C1_page_partition ⟨true⟩ [[1], [2], [3]] ["c"] (fun _ => 0) 2 (by decide)).2 1 (by decide)⟩

/-- C2: in every completed pagination session (any handle, any ceiling, with
or without an exception), the offset substituted into the `i`-th fetch is
`page_size * i` — so offsets start at 0 and, for `page_size > 0`, grow
strictly monotonically and never repeat. -/
theorem claim_C2_offset_invariant {ε ν : Type} (s : PaginatorState)
    (fetch : Nat → Nat → Except ε (List (List ν))) (columns : List String)
    (timeOf : Nat → ℚ) (ps : Nat) (mp : Option Nat) (fuel : Nat)
    (r : SessionResult ε ν) (hps : 0 < ps)
    (h : paginate_cortex_results s fetch columns timeOf ps mp fuel = some r) :
    (∀ i, ∀ hi : i < r.trace.fetched.length, r.trace.fetched.get ⟨i, hi⟩ = ps * i) ∧
    (r.trace.fetched ≠ [] → r.trace.fetched.head? = some 0) ∧
    List.Pairwise (· < ·) r.trace.fetched := by
  obtain ⟨hb, -, -⟩ := paginate_cortex_results_inv fetch columns timeOf ps mp s fuel r h
  have hfe := paginateBody_fetched fetch columns timeOf ps mp fuel 0 0 r.trace hb
  refine ⟨?_, ?_, ?_⟩
  · intro i hi
    rw [List.get_eq_getElem, List.getElem_of_eq hfe hi, List.getElem_range']
    omega
  · intro hne
    cases hlist : r.trace.fetched with
    | nil => exact absurd hlist hne
    | cons a l =>
      rw [hlist] at hfe
      rw [List.length_cons, List.range'_succ] at hfe
      injection hfe with h1 h2
      rw [h1]
      rfl
  · rw [hfe]
    have h1 : List.Chain' (· < ·) (List.range' 0 r.trace.fetched.length ps) := by
      cases hn : r.trace.fetched.length with
      | zero => simp
      | succ m =>
        rw [List.range'_succ]
        exact List.chain_lt_range' 0 m hps
    exact List.chain'_iff_pairwise.mp h1

/-- Witness for C2: an empty result set at `page_size = 2` issues the single
fetch at offset 0. -/
theorem claim_C2_offset_invariant_witness :
    0 < 2 ∧
    ((∀ i, ∀ hi : i < ([0] : List Nat).length, ([0] : List Nat).get ⟨i, hi⟩ = 2 * i) ∧
     (([0] : List Nat) ≠ [] → ([0] : List Nat).head? = some 0) ∧
     List.Pairwise (· < ·) ([0] : List Nat)) :=
  ⟨by decide,
   claim_C2_offset_invariant ⟨true⟩
     (limitOffsetFetch ([] : List (List Nat)) : Nat → Nat → Except String (List (List Nat)))
     ["c"] (fun _ => 0) 2 none 1 ⟨⟨[], [0], none⟩, true, ⟨true⟩⟩ (by decide) (by decide)⟩

/-- C3: the page sequence terminates exactly when a fetch returns zero rows
or when the page count reaches `max_pages`, and the ceiling is checked
before issuing the next fetch: (a) if the first `j` offset windows are
non-empty and window `j` is empty, the session ends with `j` pages and
exactly `j + 1` fetches — no fetch follows the empty one — and no error;
(b) with `max_pages = k ≥ 1` over an otherwise longer source, exactly `k`
pages are yielded by exactly `k` fetches (so at most `k` fetches follow the
first page) and reaching the ceiling raises no error; (c) with no ceiling
and no empty window the loop never exits — the fuel-indexed simulation
returns `none` for every fuel. -/
theorem claim_C3_termination {ε ν : Type} (s : PaginatorState)
    (fetch : Nat → Nat → Except ε (List (List ν))) (columns : List String)
    (timeOf : Nat → ℚ) (ps : Nat) :
    (∀ j fuel,
      (∀ i, i < j → ∃ rs, rs ≠ [] ∧ fetch (ps * i) ps = Except.ok rs) →
      fetch (ps * j) ps = Except.ok [] →
      j < fuel →
      ∃ r : SessionResult ε ν,
        paginate_cortex_results s fetch columns timeOf ps none fuel = some r ∧
        r.trace.pages.length = j ∧ r.trace.fetched.length = j + 1 ∧
        r.trace.error = none) ∧
    (∀ k fuel, 0 < k →
      (∀ offset, ∃ rs, rs ≠ [] ∧ fetch offset ps = Except.ok rs) →
      k < fuel →
      ∃ r : SessionResult ε ν,
        paginate_cortex_results s fetch columns timeOf ps (some k) fuel = some r ∧
        r.trace.pages.length = k ∧ r.trace.fetched.length = k ∧
        r.trace.error = none) ∧
    ((∀ offset, ∃ rs, rs ≠ [] ∧ fetch offset ps = Except.ok rs) →
      ∀ fuel, paginate_cortex_results s fetch columns timeOf ps none fuel
        = (none : Option (SessionResult ε ν))) := by
  refine ⟨?_, ?_, ?_⟩
  · intro j fuel hlt hj hfuel
    have hlt' : ∀ i, i < j → ∃ rs, rs ≠ [] ∧ fetch (0 + ps * i) ps = Except.ok rs := by
      intro i hi
      rw [Nat.zero_add]
      exact hlt i hi
    have hj' : fetch (0 + ps * j) ps = Except.ok [] := by
      rw [Nat.zero_add]
      exact hj
    obtain ⟨t, ht, hp, hf, he⟩ :=
      paginateBody_stop_empty fetch columns timeOf ps j fuel 0 0 hlt' hj' hfuel
    exact ⟨_, paginate_cortex_results_eq fetch columns timeOf ps none s fuel t ht, hp, hf, he⟩
  · intro k fuel hk hne hfuel
    obtain ⟨t, ht, hp, hf, he⟩ :=
      paginateBody_ceiling_stop fetch columns timeOf ps k hk hne fuel 0 0 (by omega) (by omega)
    rw [Nat.sub_zero] at hp hf
    exact ⟨_, paginate_cortex_results_eq fetch columns timeOf ps (some k) s fuel t ht, hp, hf, he⟩
  · intro hne fuel
    exact paginate_cortex_results_fuelout fetch columns timeOf ps none s fuel
      (paginateBody_no_stop fetch columns timeOf ps hne fuel 0 0)

/-- Witness for C3: (a) a one-row source at `page_size = 1` stops after the
empty second fetch; (b) an unbounded source with `max_pages = 1` stops at the
ceiling after one page; (c) the unbounded source with no ceiling never
stops. -/
theorem claim_C3_termination_witness :
    (∃ r : SessionResult String Nat,
      paginate_cortex_results ⟨true⟩ (limitOffsetFetch [[5]]) ["c"]
          (fun _ => 0) 1 none 2 = some r ∧
      r.trace.pages.length = 1 ∧ r.trace.fetched.length = 2 ∧
      r.trace.error = none) ∧
    (∃ r : SessionResult String Nat,
      paginate_cortex_results ⟨true⟩ (fun _ _ => Except.ok [[7]]) ["c"]
          (fun _ => 0) 1 (some 1) 2 = some r ∧
      r.trace.pages.length = 1 ∧ r.trace.fetched.length = 1 ∧
      r.trace.error = none) ∧
    paginate_cortex_results ⟨true⟩
        (fun _ _ => (Except.ok [[7]] : Except String (List (List Nat)))) ["c"]
        (fun _ => 0) 1 none 3 = none :=
  ⟨(claim_C3_termination ⟨true⟩
      (limitOffsetFetch ([[5]] : List (List Nat)) : Nat → Nat → Except String (List (List Nat)))
      ["c"] (fun _ => 0) 1).1 1 2
      (fun i hi =>
        match i, hi with
        | 0, _ => ⟨[[5]], by decide, rfl⟩
        | i + 1, hi => absurd hi (by omega))
      (by decide) (by decide),
   (claim_C3_termination ⟨true⟩
      (fun _ _ => (Except.ok [[7]] : Except String (List (List Nat))))
      ["c"] (fun _ => 0) 1).2.1 1 2 (by decide)
      (fun _ => ⟨[[7]], by decide, rfl⟩) (by decide),
   (claim_C3_termination ⟨true⟩
      (fun _ _ => (Except.ok [[7]] : Except String (List (List Nat))))
      ["c"] (fun _ => 0) 1).2.2 (fun _ => ⟨[[7]], by decide, rfl⟩) 3⟩

/-- C4: every page yielded by any completed `paginate_cortex_results`
session has `total_records` equal to the length of its `data` sequence and
`total_records > 0` — a page with zero records is never yielded. -/
theorem claim_C4_page_wellformed {ε ν : Type} (s : PaginatorState)
    (fetch : Nat → Nat → Except ε (List (List ν))) (columns : List String)
    (timeOf : Nat → ℚ) (ps : Nat) (mp : Option Nat) (fuel : Nat)
    (r : SessionResult ε ν)
    (h : paginate_cortex_results s fetch columns timeOf ps mp fuel = some r) :
    ∀ p ∈ r.trace.pages, p.total_records = p.data.length ∧ 0 < p.total_records := by
  obtain ⟨hb, -, -⟩ := paginate_cortex_results_inv fetch columns timeOf ps mp s fuel r h
  exact paginateBody_pages_wf fetch columns timeOf ps mp fuel 0 0 r.trace hb

/-- Witness for C4: the single page of a one-row session. -/
theorem claim_C4_page_wellformed_witness :
    ({ page_number := 1, total_records := 1, data := [[("c", 1)]],
       execution_time := 0, offset := 0 } : Page Nat).total_records =
      ({ page_number := 1, total_records := 1, data := [[("c", 1)]],
         execution_time := 0, offset := 0 } : Page Nat).data.length ∧
    0 < ({ page_number := 1, total_records := 1, data := [[("c", 1)]],
           execution_time := 0, offset := 0 } : Page Nat).total_records :=
  claim_C4_page_wellformed ⟨true⟩
    (limitOffsetFetch ([[1]] : List (List Nat)) : Nat → Nat → Except String (List (List Nat)))
    ["c"] (fun _ => 0) 1 none 2
    ⟨⟨[{ page_number := 1, total_records := 1, data := [[("c", 1)]],
         execution_time := 0, offset := 0 }], [0, 1], none⟩, true, ⟨true⟩⟩
    (by decide) _ (by decide)

/-- C10: `max_pages = 0` is falsy in Python, so it disables the ceiling
check entirely: a session with `max_pages = 0` is identical to one with
`max_pages = None` — it does not yield zero pages, and over a non-empty
result set it paginates until a fetch returns an empty result set, yielding
at least one page. -/
theorem claim_C10_max_pages_zero {ε ν : Type} (s : PaginatorState)
    (columns : List String) (timeOf : Nat → ℚ) (ps : Nat) :
    (∀ (fetch : Nat → Nat → Except ε (List (List ν))) (fuel : Nat),
      paginate_cortex_results s fetch columns timeOf ps (some 0) fuel =
      paginate_cortex_results s fetch columns timeOf ps none fuel) ∧
    (∀ rows : List (List ν), 0 < ps → rows ≠ [] →
      ∃ r : SessionResult ε ν,
        paginate_cortex_results s (limitOffsetFetch rows) columns timeOf ps (some 0)
            (rows.length + 1) = some r ∧
        0 < r.trace.pages.length ∧ r.trace.error = none) := by
  constructor
  · intro fetch fuel
    unfold paginate_cortex_results
    rw [paginateBody_maxPages_zero fetch columns timeOf ps fuel 0 0]
  · intro rows hps hne
    obtain ⟨t, ht, herr, hlen, hsum, hble⟩ :=
      paginateBody_limitOffset (ε := ε) columns timeOf ps rows hps (rows.length + 1) 0 0
        (by rw [List.drop_zero]; omega)
    rw [List.drop_zero] at hlen
    have ht0 : paginateBody (limitOffsetFetch rows) columns timeOf ps (some 0)
        (rows.length + 1) 0 0 = some t := by
      rw [paginateBody_maxPages_zero (limitOffsetFetch rows) columns timeOf ps
        (rows.length + 1) 0 0]
      exact ht
    refine ⟨_,
      paginate_cortex_results_eq (limitOffsetFetch rows) columns timeOf ps (some 0) s _ t ht0,
      ?_, herr⟩
    show 0 < t.pages.length
    rw [hlen]
    have hrl : 0 < rows.length := List.length_pos.mpr hne
    obtain ⟨m, hm⟩ : ∃ m, rows.length = m + 1 := ⟨rows.length - 1, by omega⟩
    rw [hm, ceilDiv_succ m ps hps]
    exact Nat.succ_pos (m / ps)

/-- Witness for C10: a one-row source with `max_pages = 0` still yields its
page. -/
theorem claim_C10_max_pages_zero_witness :
    0 < 1 ∧ ([[1]] : List (List Nat)) ≠ [] ∧
    (∃ r : SessionResult String Nat,
      paginate_cortex_results ⟨true⟩ (limitOffsetFetch [[1]]) ["c"]
          (fun _ => 0) 1 (some 0) 2 = some r ∧
      0 < r.trace.pages.length ∧ r.trace.error = none) :=
  ⟨by decide, by decide,
   (claim_C10_max_pages_zero (ε := String) (ν := Nat) ⟨true⟩ ["c"] (fun _ => 0) 1).2
     [[1]] (by decide) (by decide)⟩

/-- C5: for `retry_on_failure` with `max_retries ≥ 1` and
`backoff_factor > 0`: if the wrapped operation fails on the first
`max_retries - 1` invocations and succeeds on invocation `max_retries`, the
wrapper returns that success after exactly `max_retries` invocations, and
the sleeps inserted are `backoff_factor ^ 0, …, backoff_factor ^
(max_retries - 2)` in order, so the total wait equals their sum; if the
operation fails on every invocation, the wrapper invokes it exactly
`max_retries` times and then re-raises the very failure object of the last
invocation, unwrapped. -/
theorem claim_C5_retry {ε α : Type} (f : Nat → Except ε α) (mr : Nat) (b : ℚ)
    (hmr : 1 ≤ mr) (hb : 0 < b) :
    ((∀ i, i < mr - 1 → ∃ e, f i = Except.error e) →
      ∀ v, f (mr - 1) = Except.ok v →
        retry_on_failure f mr b =
          { result := Except.ok v, attempts := mr,
            waits := (List.range (mr - 1)).map (fun i => b ^ i) } ∧
        (retry_on_failure f mr b).waits.sum =
          ((List.range (mr - 1)).map (fun i => b ^ i)).sum) ∧
    (∀ g : Nat → ε, (∀ i, i < mr → f i = Except.error (g i)) →
      retry_on_failure f mr b =
        { result := Except.error (some (g (mr - 1))), attempts := mr,
          waits := (List.range (mr - 1)).map (fun i => b ^ i) }) := by
  constructor
  · intro hfail v hok
    have h := retryAux_fail_then_ok f mr b v mr 0 none (by omega) (by omega)
      (fun i hi1 hi2 => hfail i hi2) hok
    have hmain : retry_on_failure f mr b =
        { result := Except.ok v, attempts := mr,
          waits := (List.range (mr - 1)).map (fun i => b ^ i) } := by
      show retryAux f mr b mr 0 none = _
      rw [h, Nat.sub_zero, Nat.sub_zero, ← List.range_eq_range']
    exact ⟨hmain, by rw [hmain]⟩
  · intro g hfail
    have h := retryAux_all_fail f mr b g mr 0 none (by omega) (by omega)
      (fun i hi1 hi2 => hfail i hi2)
    show retryAux f mr b mr 0 none = _
    rw [h, Nat.sub_zero, Nat.sub_zero, ← List.range_eq_range']

/-- Witness for C5: `max_retries = 3`, `backoff_factor = 2`, once with an
operation failing twice then succeeding with 42, once with an operation that
always fails with "boom". -/
theorem claim_C5_retry_witness :
    1 ≤ 3 ∧ (0 : ℚ) < 2 ∧
    (retry_on_failure (fun i => if i < 2 then Except.error "boom" else Except.ok (42 : Nat)) 3 2 =
      { result := Except.ok 42, attempts := 3,
        waits := (List.range 2).map (fun i => (2 : ℚ) ^ i) }) ∧
    (retry_on_failure (fun _ => (Except.error "boom" : Except String Nat)) 3 2 =
      { result := Except.error (some "boom"), attempts := 3,
        waits := (List.range 2).map (fun i => (2 : ℚ) ^ i) }) :=
  ⟨by omega, by norm_num,
   ((claim_C5_retry (fun i => if i < 2 then Except.error "boom" else Except.ok (42 : Nat)) 3 2
       (by omega) (by norm_num)).1
     (fun i hi => ⟨"boom", by rw [if_pos (by omega : i < 2)]⟩) 42
     (by rfl)).1,
   (claim_C5_retry (fun _ => (Except.error "boom" : Except String Nat)) 3 2
       (by omega) (by norm_num)).2
     (fun _ => "boom") (fun i hi => rfl)⟩

/-- C6: after `paginate_with_monitoring` consumes a clean session of `P`
pages holding `R` records in total, `get_metrics_summary` reports
`total_pages_processed = P`, `total_records_processed = R`, and
`records_per_second = R / total_execution_time_seconds` — except that
`records_per_second` is 0 when the elapsed time is 0, guarding the division
by zero. -/
theorem claim_C6_metrics_summary {ε ν : Type} (toStr : ε → String)
    (pages : List (Page ν)) (elapsed : ℚ) :
    (get_metrics_summary
        (paginate_with_monitoring toStr pages none elapsed initMetrics).metrics).total_pages_processed
      = pages.length ∧
    (get_metrics_summary
        (paginate_with_monitoring toStr pages none elapsed initMetrics).metrics).total_records_processed
      = (pages.map (fun p => p.total_records)).sum ∧
    (get_metrics_summary
        (paginate_with_monitoring toStr pages none elapsed initMetrics).metrics).total_execution_time_seconds
      = elapsed ∧
    (elapsed = 0 →
      (get_metrics_summary
          (paginate_with_monitoring toStr pages none elapsed initMetrics).metrics).records_per_second
        = 0) ∧
    (0 < elapsed →
      (get_metrics_summary
          (paginate_with_monitoring toStr pages none elapsed initMetrics).metrics).records_per_second
        = (((pages.map (fun p => p.total_records)).sum : Nat) : ℚ) / elapsed) := by
  have hm : (paginate_with_monitoring toStr pages none elapsed initMetrics).metrics =
      finalizeMetrics elapsed (observePages pages initMetrics) := rfl
  have hobs : observePages pages initMetrics =
      { total_pages := pages.length,
        total_records := (pages.map (fun p => p.total_records)).sum,
        total_execution_time := 0, avg_page_time := 0, errors := [] } := by
    rw [observePages_spec pages initMetrics]
    simp [initMetrics]
  obtain ⟨hf1, hf2, hf3, hf4⟩ := finalizeMetrics_fields elapsed
    ({ total_pages := pages.length,
       total_records := (pages.map (fun p => p.total_records)).sum,
       total_execution_time := 0, avg_page_time := 0, errors := [] } : PaginationMetrics)
  refine ⟨?_, ?_, ?_, ?_, ?_⟩
  · show (paginate_with_monitoring toStr pages none elapsed initMetrics).metrics.total_pages = _
    rw [hm, hobs, hf1]
  · show (paginate_with_monitoring toStr pages none elapsed initMetrics).metrics.total_records = _
    rw [hm, hobs, hf2]
  · show (paginate_with_monitoring toStr pages none elapsed initMetrics).metrics.total_execution_time = _
    rw [hm, hobs, hf3]
  · intro h0
    show (if 0 < (paginate_with_monitoring toStr pages none elapsed initMetrics).metrics.total_execution_time
        then ((paginate_with_monitoring toStr pages none elapsed initMetrics).metrics.total_records : ℚ) /
          (paginate_with_monitoring toStr pages none elapsed initMetrics).metrics.total_execution_time
        else 0) = 0
    rw [hm, hobs, hf3, h0]
    simp
  · intro hpos
    show (if 0 < (paginate_with_monitoring toStr pages none elapsed initMetrics).metrics.total_execution_time
        then ((paginate_with_monitoring toStr pages none elapsed initMetrics).metrics.total_records : ℚ) /
          (paginate_with_monitoring toStr pages none elapsed initMetrics).metrics.total_execution_time
        else 0) = (((pages.map (fun p => p.total_records)).sum : Nat) : ℚ) / elapsed
    rw [hm, hobs, hf3, hf2, if_pos hpos]

/-- Witness for C6: two pages of 2 and 3 records at elapsed times 0 and 5. -/
theorem claim_C6_metrics_summary_witness :
    ((0 : ℚ) = 0 →
      (get_metrics_summary
          (paginate_with_monitoring (fun e : String => e)
            ([{ page_number := 1, total_records := 2, data := [], execution_time := 0, offset := 0 },
              { page_number := 2, total_records := 3, data := [], execution_time := 0, offset := 2 }] : List (Page Nat))
            (none : Option String) 0 initMetrics).metrics).records_per_second = 0) ∧
    ((0 : ℚ) < 5 →
      (get_metrics_summary
          (paginate_with_monitoring (fun e : String => e)
            ([{ page_number := 1, total_records := 2, data := [], execution_time := 0, offset := 0 },
              { page_number := 2, total_records := 3, data := [], execution_time := 0, offset := 2 }] : List (Page Nat))
            (none : Option String) 5 initMetrics).metrics).records_per_second =
        (((([{ page_number := 1, total_records := 2, data := [], execution_time := 0, offset := 0 },
             { page_number := 2, total_records := 3, data := [], execution_time := 0, offset := 2 }] : List (Page Nat)).map
            (fun p => p.total_records)).sum : Nat) : ℚ) / 5) :=
  ⟨(claim_C6_metrics_summary (fun e : String => e)
      ([{ page_number := 1, total_records := 2, data := [], execution_time := 0, offset := 0 },
        { page_number := 2, total_records := 3, data := [], execution_time := 0, offset := 2 }] : List (Page Nat))
      0).2.2.2.1,
   (claim_C6_metrics_summary (fun e : String => e)
      ([{ page_number := 1, total_records := 2, data := [], execution_time := 0, offset := 0 },
        { page_number := 2, total_records := 3, data := [], execution_time := 0, offset := 2 }] : List (Page Nat))
      5).2.2.2.2⟩

/-- C7: when the underlying sequence raises a failure inside
`paginate_with_monitoring`, the monitor appends the failure's textual
description to its error list and re-raises the identical original failure,
and every page it forwards is forwarded unchanged — monitoring never
suppresses a failure and never alters a page. -/
theorem claim_C7_monitor_transparent {ε ν : Type} (toStr : ε → String)
    (pages : List (Page ν)) (elapsed : ℚ) (m0 : PaginationMetrics) :
    (∀ err : Option ε,
      (paginate_with_monitoring toStr pages err elapsed m0).forwarded = pages) ∧
    (∀ e : ε,
      (paginate_with_monitoring toStr pages (some e) elapsed m0).raised = some e ∧
      (paginate_with_monitoring toStr pages (some e) elapsed m0).metrics.errors =
        m0.errors ++ [toStr e]) ∧
    ((paginate_with_monitoring toStr pages none elapsed m0).raised = none) := by
  refine ⟨fun err => rfl, fun e => ⟨rfl, ?_⟩, rfl⟩
  show (finalizeMetrics elapsed
      { observePages pages m0 with
        errors := (observePages pages m0).errors ++ [toStr e] }).errors =
    m0.errors ++ [toStr e]
  rw [(finalizeMetrics_fields elapsed _).2.2.2]
  show (observePages pages m0).errors ++ [toStr e] = m0.errors ++ [toStr e]
  rw [observePages_spec pages m0]

/-- C8 counterexample: with a Redis backend whose `get` and `setex` raise
(`"ConnectionError"`), `get_cached_page` propagates the failure instead of
returning an absent value, and `cache_page` propagates the failure instead
of swallowing it — there is no exception handling in either method. -/
theorem claim_C8_cache_counterexample :
    get_cached_page (fun _ => (Except.error "ConnectionError" : Except String (Option Nat)))
        (id : Nat → Nat) "qhash" 0 = Except.error "ConnectionError" ∧
    get_cached_page (fun _ => (Except.error "ConnectionError" : Except String (Option Nat)))
        (id : Nat → Nat) "qhash" 0 ≠ Except.ok none ∧
    cache_page (fun _ _ _ => (Except.error "ConnectionError" : Except String Unit))
        (id : Nat → Nat) "qhash" 0 7 = Except.error "ConnectionError" :=
  ⟨rfl, by decide, rfl⟩

/-- C8 amended: a cache-backend failure is neither converted to a miss nor
swallowed: `get_cached_page` returns exactly what the backend read yields —
propagating any failure, mapping an absent key to `none` and unpickling a
stored value — and `cache_page` returns exactly what the backend `setex`
yields, propagating any failure. -/
theorem claim_C8_cache_amended {ε β π : Type}
    (redisGet : String → Except ε (Option β)) (loads : β → π)
    (redisSetex : String → Nat → β → Except ε Unit) (dumps : π → β)
    (q : String) (n : Nat) (p : π) :
    (∀ e, redisGet (cache_key q n) = Except.error e →
      get_cached_page redisGet loads q n = Except.error e) ∧
    (redisGet (cache_key q n) = Except.ok none →
      get_cached_page redisGet loads q n = Except.ok none) ∧
    (∀ d, redisGet (cache_key q n) = Except.ok (some d) →
      get_cached_page redisGet loads q n = Except.ok (some (loads d))) ∧
    cache_page redisSetex dumps q n p = redisSetex (cache_key q n) cache_ttl (dumps p) := by
  refine ⟨?_, ?_, ?_, rfl⟩
  · intro e he
    unfold get_cached_page
    rw [he]
    rfl
  · intro he
    unfold get_cached_page
    rw [he]
    rfl
  · intro d hd
    unfold get_cached_page
    rw [hd]
    rfl

/-- Witness for C8 amended: a backend raising "boom" on read makes
`get_cached_page` raise "boom", and `cache_page` forwards the backend's
write outcome. -/
theorem claim_C8_cache_amended_witness :
    ((fun _ => (Except.error "boom" : Except String (Option Nat))) (cache_key "q" 1) =
      Except.error "boom") ∧
    get_cached_page (fun _ => (Except.error "boom" : Except String (Option Nat)))
      (id : Nat → Nat) "q" 1 = Except.error "boom" ∧
    cache_page (fun _ _ _ => (Except.error "boom" : Except String Unit))
        (id : Nat → Nat) "q" 1 5 =
      (fun _ _ _ => (Except.error "boom" : Except String Unit)) (cache_key "q" 1) cache_ttl (id 5) :=
  ⟨rfl,
   (claim_C8_cache_amended (fun _ => (Except.error "boom" : Except String (Option Nat)))
     (id : Nat → Nat) (fun _ _ _ => (Except.error "boom" : Except String Unit))
     (id : Nat → Nat) "q" 1 5).1 "boom" rfl,
   (claim_C8_cache_amended (fun _ => (Except.error "boom" : Except String (Option Nat)))
     (id : Nat → Nat) (fun _ _ _ => (Except.error "boom" : Except String Unit))
     (id : Nat → Nat) "q" 1 5).2.2.2⟩

/-- C9 counterexample: a session over an empty result set completes by
natural exhaustion, yet the paginator's connection handle is still open
afterwards — `paginate_cortex_results` never closes `self.connection`; only
the cursor is closed by the `finally` clause, so the claim that the
Connection Handle is released on every exit path is false on the code. -/
theorem claim_C9_connection_counterexample :
    (paginate_cortex_results ⟨false⟩
        (limitOffsetFetch ([] : List (List Nat)) : Nat → Nat → Except String (List (List Nat)))
        ["c"] (fun _ => 0) 10 none 1).map
      (fun r => r.finalState.connectionOpen) = some true := by
  decide

/-- C9 amended: on every exit path from a completed pagination session —
natural exhaustion, the `max_pages` ceiling, or a failure raised during
execution or fetch — the query cursor handle is closed (`finally:
cursor.close()`) before the session ends, and a raised failure is still
propagated to the consumer, never suppressed; the connection object itself
remains open for reuse across sessions rather than being released. -/
theorem claim_C9_cursor_closed {ε ν : Type} (s : PaginatorState)
    (fetch : Nat → Nat → Except ε (List (List ν))) (columns : List String)
    (timeOf : Nat → ℚ) (ps : Nat) (mp : Option Nat) (fuel : Nat) :
    (∀ r : SessionResult ε ν,
      paginate_cortex_results s fetch columns timeOf ps mp fuel = some r →
      r.cursorClosed = true ∧ r.finalState.connectionOpen = true) ∧
    (∀ j e, (∀ i, i < j → ∃ rs, rs ≠ [] ∧ fetch (ps * i) ps = Except.ok rs) →
      fetch (ps * j) ps = Except.error e → j < fuel →
      ∃ r : SessionResult ε ν,
        paginate_cortex_results s fetch columns timeOf ps none fuel = some r ∧
        r.trace.error = some e ∧ r.cursorClosed = true ∧
        r.trace.pages.length = j) := by
  constructor
  · intro r h
    obtain ⟨-, hc, hs⟩ := paginate_cortex_results_inv fetch columns timeOf ps mp s fuel r h
    refine ⟨hc, ?_⟩
    rw [hs]
    by_cases hso : s.connectionOpen
    · rw [if_pos hso]
      exact hso
    · rw [if_neg hso]
      rfl
  · intro j e hlt hj hfuel
    have hlt' : ∀ i, i < j → ∃ rs, rs ≠ [] ∧ fetch (0 + ps * i) ps = Except.ok rs := by
      intro i hi
      rw [Nat.zero_add]
      exact hlt i hi
    have hj' : fetch (0 + ps * j) ps = Except.error e := by
      rw [Nat.zero_add]
      exact hj
    obtain ⟨t, ht, hp, hf, he⟩ :=
      paginateBody_stop_error fetch columns timeOf ps e j fuel 0 0 hlt' hj' hfuel
    exact ⟨_, paginate_cortex_results_eq fetch columns timeOf ps none s fuel t ht, he, rfl, hp⟩

/-- Witness for C9 amended: a fetch that raises "boom" immediately — the
session ends with the cursor closed and "boom" propagated. -/
theorem claim_C9_cursor_closed_witness :
    ∃ r : SessionResult String Nat,
      paginate_cortex_results ⟨true⟩ (fun _ _ => Except.error "boom") ["c"]
          (fun _ => 0) 1 none 1 = some r ∧
      r.trace.error = some "boom" ∧ r.cursorClosed = true ∧
      r.trace.pages.length = 0 :=
  (claim_C9_cursor_closed ⟨true⟩
      (fun _ _ => (Except.error "boom" : Except String (List (List Nat))))
      ["c"] (fun _ => 0) 1 none 1).2 0 "boom"
    (fun i hi => absurd hi (by omega)) rfl (by decide)

end SnowflakeCortex
